import Mathlib

/-!
Verification of the configuration and command-orchestration subsystem of the
`mcp-use-cli` terminal assistant.

The development shallowly embeds the TypeScript sources:
  * `source/storage.ts`            (`SecureStorage`: encrypt / decrypt / loadConfig)
  * `source/services/llm-service.ts`   (`LLMService`: credential resolution, model selection)
  * `source/services/mcp-config-service.ts` (`MCPConfigService`: server registry and wizard)
  * the command dispatcher of `CLIService.handleCommand`

JavaScript strings are modelled as `List Char`; records are modelled as
association lists in insertion order with JavaScript assignment semantics;
`undefined` is modelled by `Option`; JavaScript truthiness (where the empty
string, `0`, `null` and `undefined` are falsy) is modelled explicitly.
The AES-256-CBC primitive of `node:crypto` (an external library used through
`createCipheriv`/`createDecipheriv` with a fixed scrypt-derived key) is
abstracted as a structure carrying its documented inversion contract; all
surrounding logic (hex encoding, the `iv:ciphertext` framing, fallbacks)
is embedded concretely.
-/

/-- JavaScript strings, modelled as lists of characters. -/
abbrev Str := List Char

/-- Coercion from Lean string literals to the model's string type. -/
def strOf (s : String) : Str := s.data

/-- JS truthiness of a possibly-absent string: `undefined` and `""` are falsy
(`!x` in the source). -/
def truthyStr : Option Str → Bool
  | none => false
  | some s => !s.isEmpty

/-- JS `a || b` on string-or-undefined values: returns `b` whenever `a` is
falsy (absent or empty). -/
def jsOrStr (a b : Option Str) : Option Str :=
  if truthyStr a then a else b

/-- Model of the JS number type relevant here (temperatures, token counts). -/
abbrev JsNum := ℚ

/-- The literal 0.7 (the default temperature), given in normal form so that
closed computations on it reduce in the kernel. -/
def q07 : JsNum := ⟨7, 10, by norm_num, by norm_num⟩

/-- JS `a || b` where `a` is a possibly-absent number: `undefined` and `0`
are falsy. -/
def jsOrNum (a : Option JsNum) (b : JsNum) : JsNum :=
  match a with
  | none => b
  | some x => if x = 0 then b else x

/-- Record lookup on a JS object modelled as an association list
(`obj[key]`, yielding `undefined` when the key is absent). -/
def jsGet {α : Type} (m : List (Str × α)) (k : Str) : Option α :=
  match m with
  | [] => none
  | (k', v) :: rest => if k' = k then some v else jsGet rest k

/-- Record assignment `obj[key] = v`: overwrites an existing binding in
place, otherwise appends (JS objects keep insertion order). -/
def jsSet {α : Type} (m : List (Str × α)) (k : Str) (v : α) : List (Str × α) :=
  match m with
  | [] => [(k, v)]
  | (k', v') :: rest => if k' = k then (k, v) :: rest else (k', v') :: jsSet rest k v

/-- Model of `String.prototype.trim`: strip leading whitespace. -/
def ltrim (s : Str) : Str := s.dropWhile Char.isWhitespace

/-- Model of `String.prototype.trim`: strip trailing whitespace. -/
def rtrim (s : Str) : Str := ((s.reverse).dropWhile Char.isWhitespace).reverse

/-- Model of `String.prototype.trim`. -/
def trimS (s : Str) : Str := rtrim (ltrim s)

/-- Model of `String.prototype.split(sep)` for a single-character separator: always
returns one more piece than there are separators (`"".split` gives `[""]`). -/
def splitOnPred (p : Char → Bool) (s : Str) : List Str :=
  s.foldr
    (fun c acc =>
      if p c then [] :: acc
      else
        match acc with
        | [] => [[c]]
        | w :: ws => (c :: w) :: ws)
    [[]]

/-- Model of `s.split(':')`. -/
def splitColon (s : Str) : List Str := splitOnPred (· = ':') s

/-- Model of `s.split('=')`. -/
def splitEq (s : Str) : List Str := splitOnPred (· = '=') s

/-- Model of `s.split('\n')`. -/
def splitNl (s : Str) : List Str := splitOnPred (· = '\n') s

/-- Model of `s.split(/\s+/)` for an input that is already trimmed: the empty string
yields `[""]`, otherwise the maximal runs of non-whitespace characters. -/
def splitWs (s : Str) : List Str :=
  if s.isEmpty then [[]]
  else (splitOnPred Char.isWhitespace s).filter (fun w => !w.isEmpty)

/-- Model of `String.prototype.startsWith` for a single-character prefix. -/
def startsWithChar (c : Char) (s : Str) : Bool :=
  match s with
  | [] => false
  | c' :: _ => c' = c

/-- Model of `String.prototype.includes(pat)`. -/
def hasSubstr (pat : Str) : Str → Bool
  | [] => pat.isEmpty
  | c :: rest => pat.isPrefixOf (c :: rest) || hasSubstr pat rest

/-- Model of `String.prototype.toLowerCase` (ASCII, which is all the sources compare). -/
def lowerS (s : Str) : Str := s.map Char.toLower

/-! ## JSON values (results of `JSON.parse`) -/

/-- A parsed JSON value.  Numbers are modelled as rationals, which is enough
for the configuration data handled here. -/
inductive JsonV : Type where
  | null : JsonV
  | bool (b : Bool) : JsonV
  | num (q : JsNum) : JsonV
  | str (s : Str) : JsonV
  | arr (xs : List JsonV) : JsonV
  | obj (fields : List (Str × JsonV)) : JsonV

/-- JS truthiness of a value (`!v`): `null`, `false`, `0` and `""` are falsy;
every object and array is truthy. -/
def jsTruthy : JsonV → Bool
  | .null => false
  | .bool b => b
  | .num q => q ≠ 0
  | .str s => !s.isEmpty
  | .arr _ => true
  | .obj _ => true

/-- Truthiness of a possibly-absent value (`!obj.field`). -/
def jsTruthyOpt : Option JsonV → Bool
  | none => false
  | some v => jsTruthy v

/-- Property access `v.field`: a lookup on objects, `undefined` on
everything else. -/
def jsField (v : JsonV) (k : Str) : Option JsonV :=
  match v with
  | .obj fields => jsGet fields k
  | _ => none

/-- Model of `typeof v === 'object'` for a parsed JSON value: objects, arrays and
`null` all have typeof `object`. -/
def jsTypeofObject : JsonV → Bool
  | .obj _ => true
  | .arr _ => true
  | .null => true
  | _ => false

/-- Decimal rendering of array indices (`Object.keys` of an array). -/
def natKey (n : Nat) : Str := (Nat.repr n).data

/-- Model of `Object.entries(v)` on the values reachable here: fields of an object in
insertion order, index/element pairs of an array, index/character pairs of a
string, and nothing for the remaining primitives. -/
def jsEntries : JsonV → List (Str × JsonV)
  | .obj fields => fields
  | .arr xs => (List.range xs.length).zip xs |>.map (fun p => (natKey p.1, p.2))
  | .str s => (List.range s.length).zip s |>.map (fun p => (natKey p.1, .str [p.2]))
  | _ => []

/-! ## `source/storage.ts` — `SecureStorage` -/

/-- The `aes-256-cbc` cipher of `node:crypto`, already keyed with the fixed
scrypt-derived key of `SecureStorage.getKey` and including the library's
utf-8 marshalling of the plaintext (`cipher.update(text, 'utf8', …)`).
`enc iv text` is the ciphertext byte sequence; `dec iv bytes` recovers the
plaintext or fails (a thrown `decipher.final`), and inverts `enc` — the
documented contract of the external primitive.  CBC output is always at
least one padded block of bytes. -/
structure BlockCipher : Type where
  enc : List Nat → Str → List Nat
  dec : List Nat → List Nat → Option Str
  dec_enc : ∀ iv text, dec iv (enc iv text) = some text
  enc_ne_nil : ∀ iv text, enc iv text ≠ []
  enc_bytes_lt : ∀ iv text, ∀ b ∈ enc iv text, b < 256

/-- One lowercase hexadecimal digit (`Buffer.toString('hex')`). -/
def hexDigitChar (n : Nat) : Char :=
  if n < 10 then Char.ofNat (48 + n) else Char.ofNat (87 + n)

/-- Hex rendering of one byte. -/
def byteToHex (b : Nat) : Str := [hexDigitChar (b / 16), hexDigitChar (b % 16)]

/-- Model of `buffer.toString('hex')`. -/
def bytesToHex (bs : List Nat) : Str := (bs.map byteToHex).flatten

/-- Numeric value of one hex digit (lowercase and uppercase). -/
def hexCharVal (c : Char) : Nat :=
  if 48 ≤ c.toNat ∧ c.toNat ≤ 57 then c.toNat - 48
  else if 97 ≤ c.toNat ∧ c.toNat ≤ 102 then c.toNat - 87
  else if 65 ≤ c.toNat ∧ c.toNat ≤ 70 then c.toNat - 55
  else 0

/-- Model of `Buffer.from(s, 'hex')`: decode pairs of digits, dropping a trailing
incomplete pair. -/
def hexToBytes : Str → List Nat
  | c1 :: c2 :: rest => (16 * hexCharVal c1 + hexCharVal c2) :: hexToBytes rest
  | _ => []

/-- Model of `SecureStorage.encrypt` (storage.ts 30–44): a fresh random `iv` (here a
parameter) is hex-rendered and joined with the hex ciphertext by `':'`.
The `catch` fallback to plaintext cannot fire in the model, where the
cipher is total. -/
def SecureStorage.encrypt (C : BlockCipher) (iv : List Nat) (text : Str) : Str :=
  bytesToHex iv ++ ':' :: bytesToHex (C.enc iv text)

/-- The guard of `SecureStorage.decrypt` (storage.ts 48–52):
`parts.length !== 2 || !parts[0] || !parts[1]` — the stored value does not
have the two-part non-empty `iv:ciphertext` shape. -/
def badCipherShape (encryptedText : Str) : Bool :=
  let parts := splitColon encryptedText
  parts.length ≠ 2 || (parts.headD []).isEmpty || ((parts.drop 1).headD []).isEmpty

/-- Embedding of `SecureStorage.decrypt` (storage.ts 46–67): split on `':'`;
anything that is not exactly two non-empty parts is returned unchanged
(legacy plaintext); a failing decryption (the `catch`) also returns the
input unchanged. -/
def SecureStorage.decrypt (C : BlockCipher) (encryptedText : Str) : Str :=
  let parts := splitColon encryptedText
  if badCipherShape encryptedText then
    encryptedText
  else
    match C.dec (hexToBytes (parts.headD [])) (hexToBytes ((parts.drop 1).headD [])) with
    | some plain => plain
    | none => encryptedText

/-- The three observable outcomes of reading the config file in
`SecureStorage.loadConfig`: the file is absent, it cannot be read or parsed
(`readFileSync`/`JSON.parse` threw), or it parsed to a JSON value. -/
inductive ConfigFileRead : Type where
  | absent : ConfigFileRead
  | unparsable : ConfigFileRead
  | parsed (j : JsonV) : ConfigFileRead

/-- The result of `SecureStorage.loadConfig`: the decrypted `apiKeys` map
plus the other fields carried over verbatim by the `{...parsed}` spread. -/
structure LoadedConfig : Type where
  apiKeys : List (Str × Str)
  lastModel : Option JsonV
  mcpServers : Option JsonV

/-- Model of `SecureStorage.loadConfig` (storage.ts 75–102).  An absent file yields a
fresh empty config; a parse/read failure is caught, logged and yields the
same default; otherwise each string entry of `parsed.apiKeys || {}` is
decrypted (the loop `decryptedApiKeys[key] = this.decrypt(encryptedValue)`)
and the remaining fields are spread through unchanged. -/
def SecureStorage.loadConfig (C : BlockCipher) : ConfigFileRead → LoadedConfig
  | .absent => { apiKeys := [], lastModel := none, mcpServers := none }
  | .unparsable => { apiKeys := [], lastModel := none, mcpServers := none }
  | .parsed j =>
      let rawKeys : JsonV :=
        match jsField j (strOf "apiKeys") with
        | some v => if jsTruthy v then v else .obj []
        | none => .obj []
      let decrypted : List (Str × Str) :=
        (jsEntries rawKeys).foldl
          (fun m kv =>
            match kv.2 with
            | .str s => jsSet m kv.1 (SecureStorage.decrypt C s)
            | _ => m)
          []
      { apiKeys := decrypted
        lastModel := jsField j (strOf "lastModel")
        mcpServers := jsField j (strOf "mcpServers") }

/-! ## `source/services/llm-service.ts` — `LLMService` -/

/-- Model of `LLMConfig` (llm-service.ts 8–13); also the shape of the persisted
`lastModel`. -/
structure LLMConfig : Type where
  provider : Str
  model : Str
  temperature : Option JsNum
  maxTokens : Option JsNum
deriving DecidableEq

/-- The in-memory `StoredConfig` held by the services (`persistentConfig`). -/
structure StoredCfg : Type where
  apiKeys : List (Str × Str)
  lastModel : Option LLMConfig
  mcpServers : List (Str × JsonV)

/-- The mutable state of an `LLMService` instance, together with the ambient
process environment and a count of `SecureStorage.saveConfig` calls (each
call persists the current `persistentConfig` to disk). -/
structure LLMState : Type where
  current : Option LLMConfig
  session : List (Str × Str)
  persistent : StoredCfg
  env : Str → Option Str
  saveCount : Nat

/-- A `SecureStorage.saveConfig(this.persistentConfig)` call. -/
def saveConfigCall (st : LLMState) : LLMState :=
  { st with saveCount := st.saveCount + 1 }

/-- The provider → credential-variable object literal that appears in
`initializeDefaultProvider`, `setModel`, `setApiKey` and `getApiKeyStatus`. -/
def envVarMap (provider : Str) : Option Str :=
  if provider = strOf "openai" then some (strOf "OPENAI_API_KEY")
  else if provider = strOf "anthropic" then some (strOf "ANTHROPIC_API_KEY")
  else if provider = strOf "google" then some (strOf "GOOGLE_API_KEY")
  else if provider = strOf "mistral" then some (strOf "MISTRAL_API_KEY")
  else none

/-- The compiled-in `availableModels` table (llm-service.ts 20–35). -/
def availableModelsTable (provider : Str) : Option (List Str) :=
  if provider = strOf "openai" then
    some [strOf "gpt-4o", strOf "gpt-4o-mini", strOf "gpt-4-turbo", strOf "gpt-4",
      strOf "gpt-3.5-turbo"]
  else if provider = strOf "anthropic" then
    some [strOf "claude-3-5-sonnet-20241022", strOf "claude-3-5-haiku-20241022",
      strOf "claude-3-opus-20240229", strOf "claude-3-sonnet-20240229",
      strOf "claude-3-haiku-20240307"]
  else if provider = strOf "google" then
    some [strOf "gemini-1.5-pro", strOf "gemini-1.5-flash", strOf "gemini-pro"]
  else if provider = strOf "mistral" then
    some [strOf "mistral-large-latest", strOf "mistral-medium-latest",
      strOf "mistral-small-latest"]
  else none

/-- Model of `LLMService.getApiKey` (llm-service.ts 104–111):
`sessionApiKeys[envVar] || persistentConfig.apiKeys[envVar] || process.env[envVar]`. -/
def getApiKey (st : LLMState) (envVar : Str) : Option Str :=
  jsOrStr (jsOrStr (jsGet st.session envVar) (jsGet st.persistent.apiKeys envVar))
    (st.env envVar)

/-- Model of `LLMService.getAvailableProviders` (llm-service.ts 113–120). -/
def getAvailableProviders (st : LLMState) : List Str :=
  (if truthyStr (getApiKey st (strOf "OPENAI_API_KEY")) then [strOf "openai"] else []) ++
  (if truthyStr (getApiKey st (strOf "ANTHROPIC_API_KEY")) then [strOf "anthropic"] else []) ++
  (if truthyStr (getApiKey st (strOf "GOOGLE_API_KEY")) then [strOf "google"] else []) ++
  (if truthyStr (getApiKey st (strOf "MISTRAL_API_KEY")) then [strOf "mistral"] else [])

/-- The provider registry scanned by `initializeDefaultProvider`
(llm-service.ts 65–86), in declaration order:
`(name, credential env var, default model)`. -/
def providerRegistry : List (Str × Str × Str) :=
  [(strOf "openai", strOf "OPENAI_API_KEY", strOf "gpt-4o-mini"),
   (strOf "anthropic", strOf "ANTHROPIC_API_KEY", strOf "claude-3-5-sonnet-20241022"),
   (strOf "google", strOf "GOOGLE_API_KEY", strOf "gemini-1.5-pro"),
   (strOf "mistral", strOf "MISTRAL_API_KEY", strOf "mistral-large-latest")]

/-- The registry scan of `initializeDefaultProvider` (llm-service.ts 88–101):
the first provider whose credential resolves is selected at its default
model and temperature 0.7; otherwise `currentLLMConfig` stays `null`. -/
def scanRegistry (st : LLMState) : Option LLMConfig :=
  match providerRegistry.find? (fun p => truthyStr (getApiKey st p.2.1)) with
  | some p =>
      some { provider := p.1, model := p.2.2, temperature := some q07, maxTokens := none }
  | none => none

/-- Model of `LLMService.initializeDefaultProvider` (llm-service.ts 42–102): first try
the persisted `lastModel` — reinstated with `temperature: lastModel.temperature
|| 0.7` and `maxTokens: lastModel.maxTokens` when its provider's credential
still resolves — otherwise fall back to the registry scan. -/
def initializeDefaultProvider (st : LLMState) : LLMState :=
  match st.persistent.lastModel with
  | some lm =>
      match envVarMap lm.provider with
      | some ev =>
          if truthyStr (some ev) && truthyStr (getApiKey st ev) then
            let reinstated : LLMConfig :=
              { provider := lm.provider, model := lm.model,
                temperature := some (jsOrNum lm.temperature q07),
                maxTokens := lm.maxTokens }
            { st with current := some reinstated }
          else { st with current := scanRegistry st }
      | none => { st with current := scanRegistry st }
  | none => { st with current := scanRegistry st }

/-- The result record of `LLMService.setModel` (llm-service.ts 145–150);
the optional `requiresApiKey` field is only ever tested for truthiness,
so its absence is modelled as `false`. -/
structure SetModelResult : Type where
  success : Bool
  message : Str
  requiresApiKey : Bool
  envVar : Option Str
deriving DecidableEq

/-- Model of `LLMService.setModel` (llm-service.ts 142–194). -/
def setModel (st : LLMState) (provider model : Str) : SetModelResult × LLMState :=
  match availableModelsTable provider with
  | none =>
      ({ success := false, message := strOf "Unknown provider: " ++ provider,
         requiresApiKey := false, envVar := none }, st)
  | some models =>
      if provider ∉ getAvailableProviders st then
        ({ success := false, message := strOf "API key not found for " ++ provider,
           requiresApiKey := true, envVar := envVarMap provider }, st)
      else if model ∉ models then
        ({ success := false,
           message := strOf "Model " ++ model ++ strOf " not available for " ++ provider,
           requiresApiKey := false, envVar := none }, st)
      else
        let newCfg : LLMConfig :=
          { provider := provider, model := model,
            temperature := some (jsOrNum (st.current.bind (·.temperature)) q07),
            maxTokens := st.current.bind (·.maxTokens) }
        let st' := { st with
          current := some newCfg,
          persistent := { st.persistent with lastModel := some newCfg } }
        ({ success := true,
           message := strOf "Switched to " ++ provider ++ strOf " " ++ model,
           requiresApiKey := false, envVar := none }, saveConfigCall st')

/-- Model of `String.prototype.toUpperCase` (ASCII). -/
def upperS (s : Str) : Str := s.map Char.toUpper

/-- The partial server spec threaded through the configuration wizard
(`Partial<MCPServerConfig> & {name?: string}`). -/
structure PartialCfg : Type where
  name : Option Str
  command : Option Str
  args : Option (List Str)
  env : Option (List (Str × Str))

/-- The empty partial spec (`const config = serverConfig || {}`). -/
def PartialCfg.empty : PartialCfg :=
  { name := none, command := none, args := none, env := none }

/-- The `type` tag of a `CommandResult` (types.ts / commands.ts). -/
inductive CRType : Type where
  | success | error | info | promptKey | promptServerConfig
  | listServers | listTools | serverAction
deriving DecidableEq

/-- The `data` payloads that the embedded handlers attach to a
`CommandResult` (`data?: any` in the sources). -/
inductive CRData : Type where
  | promptKey (provider model : Str) (envVar : Option Str) : CRData
  | llmConfig (cfg : Option LLMConfig) : CRData
  | wizardStep (step : Str) (cfg : Option PartialCfg) : CRData
  | serverAdded (name : Str) : CRData
  | serversAdded (names : List Str) : CRData

/-- A structured `CommandResult`. -/
structure CommandResult : Type where
  type : CRType
  message : Str
  data : Option CRData

/-- Model of `LLMService.handleModelCommand` (llm-service.ts 475–543). -/
def handleModelCommand (st : LLMState) (args : List Str) : CommandResult × LLMState :=
  if args.length < 2 then
    if (getAvailableProviders st).isEmpty then
      ({ type := .info,
         message := strOf "Usage: /model <provider> <model> (popular models listed)",
         data := none }, st)
    else
      ({ type := .error, message := strOf "Usage: /model <provider> <model>", data := none },
        st)
  else
    let provider := args.headD []
    let model := (args.drop 1).headD []
    if !truthyStr (some provider) || !truthyStr (some model) then
      ({ type := .error, message := strOf "Both provider and model are required",
         data := none }, st)
    else if (availableModelsTable provider).isNone then
      ({ type := .error,
         message := strOf "Unknown provider: " ++ provider ++
           strOf "\nAvailable providers: openai, anthropic, google, mistral",
         data := none }, st)
    else
      let r := setModel st provider model
      if !r.1.success then
        if r.1.requiresApiKey then
          ({ type := .promptKey,
             message := strOf "Please enter your " ++ upperS provider ++ strOf " API key:",
             data := some (.promptKey provider model r.1.envVar) }, r.2)
        else
          ({ type := .error, message := r.1.message, data := none }, r.2)
      else
        ({ type := .success, message := strOf "✅ " ++ r.1.message,
           data := some (.llmConfig r.2.current) }, r.2)

/-! ## `source/services/mcp-config-service.ts` — `MCPConfigService` -/

/-- The state of an `MCPConfigService` instance: the `mcpServers` map of its
`persistentConfig` (values are kept as the raw parsed JSON the service
stores) and a count of `SecureStorage.saveConfig` calls. -/
structure MCPState : Type where
  mcpServers : List (Str × JsonV)
  saveCount : Nat

/-- An `MCPServerConfigResult` (mcp-config-service.ts 10–14), with the
`data` payloads it carries. -/
structure RegResult : Type where
  success : Bool
  message : Str
  data : Option CRData

/-- Model of `xs.join(sep)`. -/
def joinWith (sep : Str) (xs : List Str) : Str := List.intercalate sep xs

/-- Model of `MCPConfigService.addServer` (mcp-config-service.ts 110–137): reject a
name whose entry is already (truthily) present, otherwise store the spec
and save. -/
def addServer (st : MCPState) (name : Str) (spec : JsonV) : RegResult × MCPState :=
  if jsTruthyOpt (jsGet st.mcpServers name) then
    ({ success := false,
       message := strOf "Server \x22" ++ name ++
         strOf "\x22 already exists. Use a different name.",
       data := none }, st)
  else
    ({ success := true,
       message := strOf "Server \x22" ++ name ++ strOf "\x22 configured!",
       data := some (.serverAdded name) },
     { mcpServers := jsSet st.mcpServers name spec, saveCount := st.saveCount + 1 })

/-- The per-entry validation of `addServerFromJSON` (mcp-config-service.ts
71–79): `!server.command || typeof server.command !== 'string'` rejects a
missing, non-string or empty `command`. -/
def entryCommandOk (server : JsonV) : Bool :=
  match jsField server (strOf "command") with
  | some (.str c) => !c.isEmpty
  | _ => false

/-- Model of `MCPConfigService.addServerFromJSON` after a successful `JSON.parse`
(mcp-config-service.ts 35–99). -/
def addServerFromJSONParsed (j : JsonV) (st : MCPState) : RegResult × MCPState :=
  match jsField j (strOf "mcpServers") with
  | none =>
      ({ success := false, message := strOf "Invalid JSON format. Expected format: ...",
         data := none }, st)
  | some servers =>
      if !(jsTruthy servers && jsTypeofObject servers) then
        ({ success := false, message := strOf "Invalid JSON format. Expected format: ...",
           data := none }, st)
      else
        let serverNames := (jsEntries servers).map Prod.fst
        if serverNames.isEmpty then
          ({ success := false, message := strOf "No servers found in JSON configuration.",
             data := none }, st)
        else
          let conflicts := serverNames.filter (fun n => jsTruthyOpt (jsGet st.mcpServers n))
          if !conflicts.isEmpty then
            ({ success := false,
               message := strOf "Server(s) already exist: " ++ joinWith (strOf ", ") conflicts ++
                 strOf ". Please use different names.",
               data := none }, st)
          else
            match (jsEntries servers).find? (fun e => !entryCommandOk e.2) with
            | some bad =>
                ({ success := false,
                   message := strOf "Server \x22" ++ bad.1 ++
                     strOf "\x22 missing required \x22command\x22 field.",
                   data := none }, st)
            | none =>
                let merged := (jsEntries servers).foldl (fun m e => jsSet m e.1 e.2) st.mcpServers
                ({ success := true,
                   message := strOf "Configured " ++ natKey serverNames.length ++
                     strOf " server(s)!",
                   data := some (.serversAdded serverNames) },
                 { mcpServers := merged, saveCount := st.saveCount + 1 })

/-- Model of `MCPConfigService.addServerFromJSON` (mcp-config-service.ts 31–108): the
`JSON.parse` of the external runtime is a parameter `jp`; a thrown parse
error is the `catch` branch. -/
def addServerFromJSON (jp : Str → Option JsonV) (st : MCPState) (jsonConfig : Str) :
    RegResult × MCPState :=
  match jp jsonConfig with
  | none =>
      ({ success := false, message := strOf "Invalid JSON format: parse error",
         data := none }, st)
  | some j => addServerFromJSONParsed j st

/-- Model of `MCPConfigService.validateServerName` (mcp-config-service.ts 202–215). -/
def validateServerName (st : MCPState) (name : Str) : Bool × Str :=
  if !truthyStr (some name) || !truthyStr (some (trimS name)) then
    (false, strOf "Server name cannot be empty.")
  else if jsTruthyOpt (jsGet st.mcpServers (trimS name)) then
    (false, strOf "Server \x22" ++ trimS name ++
      strOf "\x22 already exists. Use a different name.")
  else (true, [])

/-- One iteration of the env-parsing loop of
`MCPConfigService.parseEnvironmentVariables` (mcp-config-service.ts
220–226): a line contributes a binding when its part before the first `'='`
is non-empty and at least one `'='` is present; the remainder is re-joined
on `'='`; keys and values are trimmed. -/
def parseEnvLine (env : List (Str × Str)) (line : Str) : List (Str × Str) :=
  let parts := splitEq line
  let key := parts.headD []
  let valueParts := parts.tail
  if truthyStr (some key) && valueParts.length > 0 then
    jsSet env (trimS key) (trimS (joinWith (strOf "=") valueParts))
  else env

/-- Embedding of `MCPConfigService.parseEnvironmentVariables`
(mcp-config-service.ts 217–229): split the trimmed input into lines and
fold the per-line parser over them. -/
def parseEnvironmentVariables (envString : Str) : List (Str × Str) :=
  if (trimS envString).isEmpty then []
  else (splitNl (trimS envString)).foldl parseEnvLine []

/-- The JSON shape in which the wizard's confirmed spec
`{command: config.command, args: config.args, env: config.env}` is persisted
(fields that are `undefined` are dropped by `JSON.stringify`). -/
def wizardSpecJson (command : Str) (args : Option (List Str))
    (env : Option (List (Str × Str))) : JsonV :=
  .obj ([(strOf "command", .str command)] ++
    (match args with
     | some a => [(strOf "args", .arr (a.map .str))]
     | none => []) ++
    (match env with
     | some e => [(strOf "env", .obj (e.map (fun kv => (kv.1, .str kv.2))))]
     | none => []))

/-- Model of `MCPConfigService.handleServerConfigInput` (mcp-config-service.ts
393–554): one turn of the server-configuration wizard. -/
def handleServerConfigInput (jp : Str → Option JsonV) (st : MCPState)
    (input : Str) (step : Str) (serverConfig : Option PartialCfg) :
    CommandResult × MCPState :=
  let config := serverConfig.getD PartialCfg.empty
  if step = strOf "name_or_json" then
    let trimmedInput := trimS input
    if startsWithChar '{' trimmedInput && hasSubstr (strOf "mcpServers") trimmedInput then
      let r := addServerFromJSON jp st trimmedInput
      if !r.1.success then
        ({ type := .error, message := r.1.message, data := none }, r.2)
      else
        ({ type := .success, message := r.1.message ++ strOf ".", data := r.1.data }, r.2)
    else
      let v := validateServerName st trimmedInput
      if !v.1 then ({ type := .error, message := v.2, data := none }, st)
      else
        let config' := { config with name := some trimmedInput }
        ({ type := .promptServerConfig,
           message := strOf "Server name: " ++ trimmedInput ++
             strOf "\n\nEnter the command to run this server:",
           data := some (.wizardStep (strOf "command") (some config')) }, st)
  else if step = strOf "name" then
    let v := validateServerName st (trimS input)
    if !v.1 then ({ type := .error, message := v.2, data := none }, st)
    else
      let config' := { config with name := some (trimS input) }
      ({ type := .promptServerConfig,
         message := strOf "Server name: " ++ trimS input ++
           strOf "\n\nEnter the command to run this server:",
         data := some (.wizardStep (strOf "command") (some config')) }, st)
  else if step = strOf "command" then
    if !truthyStr (some (trimS input)) then
      ({ type := .error, message := strOf "Command cannot be empty.", data := none }, st)
    else
      let config' := { config with command := some (trimS input) }
      ({ type := .promptServerConfig,
         message := strOf "Enter arguments (space-separated, or press Enter for none):",
         data := some (.wizardStep (strOf "args") (some config')) }, st)
  else if step = strOf "args" then
    let config' := { config with
      args := some (if truthyStr (some (trimS input)) then splitWs (trimS input) else []) }
    ({ type := .promptServerConfig,
       message := strOf "Enter environment variables (KEY=VALUE format, one per line):",
       data := some (.wizardStep (strOf "env") (some config')) }, st)
  else if step = strOf "env" then
    let config' := { config with env := some (parseEnvironmentVariables input) }
    ({ type := .promptServerConfig,
       message := strOf "Server Configuration Summary. Confirm to add this server? (y/n):",
       data := some (.wizardStep (strOf "confirm") (some config')) }, st)
  else if step = strOf "confirm" then
    if lowerS (trimS input) = strOf "y" ∨ lowerS (trimS input) = strOf "yes" then
      match config.command with
      | none =>
          ({ type := .error, message := strOf "Server command is required", data := none }, st)
      | some cmd =>
          if cmd.isEmpty then
            ({ type := .error, message := strOf "Server command is required", data := none },
              st)
          else
            let spec := wizardSpecJson cmd config.args config.env
            let nm := if truthyStr config.name then config.name.getD [] else []
            let r := addServer st nm spec
            if !r.1.success then
              ({ type := .error, message := r.1.message, data := none }, r.2)
            else
              ({ type := .success, message := r.1.message ++ strOf ".", data := r.1.data },
                r.2)
    else if lowerS (trimS input) = strOf "n" ∨ lowerS (trimS input) = strOf "no" then
      ({ type := .info, message := strOf "Server configuration cancelled.", data := none }, st)
    else
      ({ type := .error, message := strOf "Please enter \x22y\x22 for yes or \x22n\x22 for no.",
         data := none }, st)
  else
    ({ type := .error, message := strOf "Invalid server configuration step.", data := none },
      st)

/-- The turn loop of the caller (app.tsx): while the result is a
`prompt_server_config` carrying `{step, config}`, the next input line is fed
back to `handleServerConfigInput` with that step and config. -/
def wizardRun (jp : Str → Option JsonV) (st : MCPState) (step : Str)
    (cfg : Option PartialCfg) : List Str → CommandResult × MCPState
  | [] => ({ type := .error, message := [], data := none }, st)
  | input :: rest =>
      let r := handleServerConfigInput jp st input step cfg
      match rest with
      | [] => r
      | _ =>
          if r.1.type = .promptServerConfig then
            match r.1.data with
            | some (.wizardStep s c) => wizardRun jp r.2 s c rest
            | _ => r
          else r

/-! ## The command dispatcher of `CLIService.handleCommand` -/

/-- The outcome of dispatching one input line: either a registered handler
is invoked with the remaining tokens, or the line is reported as an unknown
command. -/
inductive DispatchOutcome (α : Type) : Type where
  | invoke (h : α) (args : List Str) : DispatchOutcome α
  | unknown (msg : Str) : DispatchOutcome α
deriving DecidableEq

/-- Model of `CLIService.handleCommand` (dispatch part, lines 210–237 of the service):
split the trimmed line on whitespace; with at least two tokens, first try
the two-token key `"<tok0> <tok1>"` (consuming the subcommand token on a
hit); otherwise fall back to the one-token key; no match is a structured
unknown-command error. -/
def dispatchCommand {α : Type} (reg : List (Str × α)) (input : Str) : DispatchOutcome α :=
  let parts := splitWs (trimS input)
  let command := parts.headD []
  let args := parts.tail
  let sub := if args.length > 0 then jsGet reg (command ++ ' ' :: args.headD []) else none
  match sub with
  | some h => .invoke h args.tail
  | none =>
      match jsGet reg command with
      | some h => .invoke h args
      | none =>
          .unknown (strOf "Unknown command: " ++ command ++
            strOf ". Type /help for available commands.")

/-- Tags naming the handlers registered by `CLIService.registerCommands`. -/
inductive CmdTag : Type where
  | model | models | setkey | clearkeys | config
  | server | serverAdd | serverConnect | serverDisconnect
  | servers | testServer | tools
  | help | status | logs | clearlogs | history
deriving DecidableEq

/-- The command registry built by `CLIService.registerCommands`, in
registration order. -/
def cliRegistry : List (Str × CmdTag) :=
  [(strOf "/model", .model), (strOf "/models", .models), (strOf "/setkey", .setkey),
   (strOf "/clearkeys", .clearkeys), (strOf "/config", .config),
   (strOf "/server", .server), (strOf "/server add", .serverAdd),
   (strOf "/server connect", .serverConnect), (strOf "/server disconnect", .serverDisconnect),
   (strOf "/servers", .servers), (strOf "/test-server", .testServer),
   (strOf "/tools", .tools), (strOf "/help", .help), (strOf "/status", .status),
   (strOf "/logs", .logs), (strOf "/clearlogs", .clearlogs), (strOf "/history", .history)]

/-! ## Concrete instances used by the witnesses and counterexamples -/

/-- Four-byte big-endian encoding of a character code (used only by the
concrete cipher instance below). -/
def enc4 (n : Nat) : List Nat :=
  [n / 16777216 % 256, n / 65536 % 256, n / 256 % 256, n % 256]

/-- Decoding of `enc4`-encoded characters. -/
def dec4 : List Nat → Str
  | a :: b :: c :: d :: rest =>
      Char.ofNat (((a * 256 + b) * 256 + c) * 256 + d) :: dec4 rest
  | _ => []

/-- A concrete instance of the cipher interface (a stand-in for the external
AES primitive): a marker byte followed by a four-byte encoding of each
character.  It satisfies the interface laws, which lets the theorems below
be evaluated on closed inputs. -/
def testCipher : BlockCipher where
  enc := fun _ text => 0 :: (text.map (fun c => enc4 c.toNat)).flatten
  dec := fun _ bs =>
    match bs with
    | [] => none
    | _ :: rest => some (dec4 rest)
  dec_enc := by
    intro iv text
    have key : ∀ t : Str, dec4 ((t.map (fun c => enc4 c.toNat)).flatten) = t := by
      intro t
      induction t with
      | nil => rfl
      | cons c r ih =>
        have hb : c.toNat < 4294967296 := c.val.toNat_lt_size
        simp only [List.map_cons, List.flatten_cons, enc4, List.cons_append,
          List.nil_append, dec4]
        refine (congrArg₂ List.cons ?_ ih)
        have hv : ((c.toNat / 16777216 % 256 * 256 + c.toNat / 65536 % 256) * 256 +
            c.toNat / 256 % 256) * 256 + c.toNat % 256 = c.toNat := by omega
        rw [hv, Char.ofNat_toNat]
    simpa using key text
  enc_ne_nil := by intro iv text; simp
  enc_bytes_lt := by
    intro iv text b hb
    simp only [List.mem_cons, List.mem_flatten, List.mem_map] at hb
    rcases hb with h0 | ⟨l, ⟨c, _, hc⟩, hbl⟩
    · omega
    · subst hc
      simp only [enc4, List.mem_cons, List.not_mem_nil, or_false] at hbl
      rcases hbl with h | h | h | h <;> omega

/-- A process environment with no variables set. -/
def envNone : Str → Option Str := fun _ => none

/-- A process environment exposing only `OPENAI_API_KEY`. -/
def envOpenAI : Str → Option Str := fun v =>
  if v = strOf "OPENAI_API_KEY" then some (strOf "sk-envkey") else none

/-- An empty persisted configuration. -/
def storedEmpty : StoredCfg := { apiKeys := [], lastModel := none, mcpServers := [] }

/-- LLM state with no credential anywhere. -/
def stNoKeys : LLMState :=
  { current := none, session := [], persistent := storedEmpty, env := envNone, saveCount := 0 }

/-- LLM state whose only credential is the `OPENAI_API_KEY` process
environment variable. -/
def stOpenAIEnv : LLMState :=
  { current := none, session := [], persistent := storedEmpty, env := envOpenAI,
    saveCount := 0 }

/-- LLM state holding an empty-string session entry and a non-empty
persistent entry for the same variable. -/
def stC1cex : LLMState :=
  { current := none,
    session := [(strOf "OPENAI_API_KEY", strOf "")],
    persistent := { apiKeys := [(strOf "OPENAI_API_KEY", strOf "sk-persistent")],
                    lastModel := none, mcpServers := [] },
    env := envNone, saveCount := 0 }

/-- LLM state with distinct session, persistent and environment values for
the same variable. -/
def stC1wit : LLMState :=
  { current := none,
    session := [(strOf "OPENAI_API_KEY", strOf "sk-session")],
    persistent := { apiKeys := [(strOf "OPENAI_API_KEY", strOf "sk-persistent")],
                    lastModel := none, mcpServers := [] },
    env := envOpenAI, saveCount := 0 }

/-- LLM state with an active model whose temperature was explicitly set
to 0. -/
def stC8cex : LLMState :=
  { current := some { provider := strOf "openai", model := strOf "gpt-4o",
                      temperature := some 0, maxTokens := some 5 },
    session := [],
    persistent := { apiKeys := [(strOf "OPENAI_API_KEY", strOf "sk-stored")],
                    lastModel := none, mcpServers := [] },
    env := envNone, saveCount := 0 }

/-- LLM state with an active model at a non-zero temperature. -/
def stC8wit : LLMState :=
  { current := some { provider := strOf "openai", model := strOf "gpt-4o",
                      temperature := some 1, maxTokens := some 5 },
    session := [],
    persistent := { apiKeys := [(strOf "OPENAI_API_KEY", strOf "sk-stored")],
                    lastModel := none, mcpServers := [] },
    env := envNone, saveCount := 0 }

/-- LLM state whose persisted last model has temperature 0 and whose
provider credential still resolves from the environment. -/
def stC9cex : LLMState :=
  { current := none, session := [],
    persistent := { apiKeys := [],
                    lastModel := some { provider := strOf "openai", model := strOf "gpt-4o",
                                        temperature := some 0, maxTokens := none },
                    mcpServers := [] },
    env := envOpenAI, saveCount := 0 }

/-- LLM state whose persisted last model has a non-zero temperature and a
resolvable credential. -/
def stC9wit : LLMState :=
  { current := none, session := [],
    persistent := { apiKeys := [],
                    lastModel := some { provider := strOf "openai", model := strOf "gpt-4o",
                                        temperature := some 1, maxTokens := some 9 },
                    mcpServers := [] },
    env := envOpenAI, saveCount := 0 }

/-- An empty server registry. -/
def mcpEmpty : MCPState := { mcpServers := [], saveCount := 0 }

/-- A parsed bulk configuration whose single entry carries only a `url`. -/
def bulkUrlOnly : JsonV :=
  .obj [(strOf "mcpServers",
    .obj [(strOf "remote", .obj [(strOf "url", .str (strOf "http://localhost:8000/sse"))])])]

/-- A parsed bulk configuration with one well-formed command entry. -/
def bulkOneCmd : JsonV :=
  .obj [(strOf "mcpServers",
    .obj [(strOf "files",
      .obj [(strOf "command", .str (strOf "npx")),
            (strOf "args", .arr [.str (strOf "-y"), .str (strOf "@example/server")])])])]

/-! ## Lemmas about the string primitives -/

/-- Unfolding equation of the splitter. -/
theorem splitOnPred_cons (p : Char → Bool) (c : Char) (t : Str) :
    splitOnPred p (c :: t) =
      if p c then [] :: splitOnPred p t
      else
        match splitOnPred p t with
        | [] => [[c]]
        | w :: ws => (c :: w) :: ws := rfl

/-- The splitter never returns an empty list of pieces. -/
theorem splitOnPred_ne_nil (p : Char → Bool) (s : Str) : splitOnPred p s ≠ [] := by
  induction s with
  | nil => simp [splitOnPred]
  | cons c t ih =>
    rw [splitOnPred_cons]
    split
    · simp
    · rcases h : splitOnPred p t with _ | ⟨w, ws⟩
      · simp
      · simp

/-- A string without separators is a single piece. -/
theorem splitOnPred_no_sep (p : Char → Bool) (s : Str)
    (h : ∀ c ∈ s, p c = false) : splitOnPred p s = [s] := by
  induction s with
  | nil => rfl
  | cons c t ih =>
    rw [splitOnPred_cons, if_neg]
    · rw [ih (fun x hx => h x (List.mem_cons_of_mem c hx))]
    · simp [h c (List.mem_cons_self c t)]

/-- Splitting around a single separator yields exactly the two
separator-free sides. -/
theorem splitOnPred_sep_append (p : Char → Bool) (sep : Char) (a b : Str)
    (hsep : p sep = true)
    (ha : ∀ c ∈ a, p c = false) (hb : ∀ c ∈ b, p c = false) :
    splitOnPred p (a ++ sep :: b) = [a, b] := by
  induction a with
  | nil =>
    rw [List.nil_append, splitOnPred_cons, if_pos hsep, splitOnPred_no_sep p b hb]
  | cons c a' ih =>
    rw [List.cons_append, splitOnPred_cons, if_neg]
    · rw [ih (fun x hx => ha x (List.mem_cons_of_mem c hx))]
    · simp [ha c (List.mem_cons_self c a')]

/-! ## Lemmas about the hex encoding -/

/-- Hex digits decode back to their value. -/
theorem hexCharVal_hexDigitChar : ∀ n, n < 16 → hexCharVal (hexDigitChar n) = n := by decide

/-- A hex digit is never the separator character. -/
theorem hexDigitChar_ne_colon : ∀ n, n < 16 → hexDigitChar n ≠ ':' := by decide

/-- Decoding one encoded byte. -/
theorem hexToBytes_byteToHex (b : Nat) (hb : b < 256) (rest : Str) :
    hexToBytes (byteToHex b ++ rest) = b :: hexToBytes rest := by
  simp only [byteToHex, List.cons_append, List.nil_append, hexToBytes]
  rw [hexCharVal_hexDigitChar _ (by omega), hexCharVal_hexDigitChar _ (by omega)]
  congr 1
  omega

/-- Hex decoding inverts hex encoding on byte sequences. -/
theorem hexToBytes_bytesToHex (bs : List Nat) (h : ∀ b ∈ bs, b < 256) :
    hexToBytes (bytesToHex bs) = bs := by
  induction bs with
  | nil => rfl
  | cons b r ih =>
    have : bytesToHex (b :: r) = byteToHex b ++ bytesToHex r := by
      simp [bytesToHex]
    rw [this, hexToBytes_byteToHex b (h b (List.mem_cons_self b r))]
    rw [ih (fun x hx => h x (List.mem_cons_of_mem b hx))]

/-- A hex rendering of bytes contains no separator character. -/
theorem colon_not_mem_bytesToHex (bs : List Nat) (h : ∀ b ∈ bs, b < 256) :
    ':' ∉ bytesToHex bs := by
  intro hmem
  simp only [bytesToHex, List.mem_flatten, List.mem_map] at hmem
  obtain ⟨l, ⟨b, hb, hl⟩, hcl⟩ := hmem
  subst hl
  simp only [byteToHex, List.mem_cons, List.not_mem_nil, or_false] at hcl
  have hblt := h b hb
  rcases hcl with hc | hc
  · exact hexDigitChar_ne_colon (b / 16) (by omega) hc.symm
  · exact hexDigitChar_ne_colon (b % 16) (by omega) hc.symm

/-- A hex rendering of a non-empty byte sequence is non-empty. -/
theorem bytesToHex_ne_nil (bs : List Nat) (h : bs ≠ []) : bytesToHex bs ≠ [] := by
  cases bs with
  | nil => exact absurd rfl h
  | cons b r => simp [bytesToHex, byteToHex]

/-- C2: for every secret `s`, decrypting the result of encrypting `s` yields
`s` back unchanged: `decrypt(encrypt(s)) == s`.  The encryption produces an
`ivHex:cipherHex` string from a fresh random IV (any non-empty byte
sequence), and `decrypt` splits it on `':'` and reverses the cipher. -/
theorem claim_C2_encrypt_decrypt_roundtrip (C : BlockCipher) (iv : List Nat) (s : Str)
    (hne : iv ≠ []) (hlt : ∀ b ∈ iv, b < 256) :
    SecureStorage.decrypt C (SecureStorage.encrypt C iv s) = s := by
  have hsplit : splitColon (SecureStorage.encrypt C iv s) =
      [bytesToHex iv, bytesToHex (C.enc iv s)] := by
    refine splitOnPred_sep_append _ ':' _ _ (by decide) ?_ ?_
    · intro c hc
      simp only [decide_eq_false_iff_not]
      intro hccol
      exact colon_not_mem_bytesToHex iv hlt (hccol ▸ hc)
    · intro c hc
      simp only [decide_eq_false_iff_not]
      intro hccol
      exact colon_not_mem_bytesToHex (C.enc iv s) (C.enc_bytes_lt iv s) (hccol ▸ hc)
  have hshape : badCipherShape (SecureStorage.encrypt C iv s) = false := by
    rw [badCipherShape, hsplit]
    simp only [List.length_cons, List.length_nil, List.headD_cons, List.drop_succ_cons,
      List.drop_zero]
    have h1 : (bytesToHex iv).isEmpty = false := by
      simpa [List.isEmpty_iff] using bytesToHex_ne_nil iv hne
    have h2 : (bytesToHex (C.enc iv s)).isEmpty = false := by
      simpa [List.isEmpty_iff] using bytesToHex_ne_nil (C.enc iv s) (C.enc_ne_nil iv s)
    simp [h1, h2]
  rw [SecureStorage.decrypt, hshape]
  simp only [Bool.false_eq_true, if_false, hsplit]
  simp only [List.headD_cons, List.drop_succ_cons, List.drop_zero]
  rw [hexToBytes_bytesToHex iv hlt, hexToBytes_bytesToHex (C.enc iv s) (C.enc_bytes_lt iv s),
    C.dec_enc]

/-- Witness for C2 at a concrete cipher, IV and secret. -/
theorem claim_C2_encrypt_decrypt_roundtrip_witness :
    ([1, 2] : List Nat) ≠ [] ∧ (∀ b ∈ ([1, 2] : List Nat), b < 256) ∧
    SecureStorage.decrypt testCipher
      (SecureStorage.encrypt testCipher [1, 2] (strOf "sk-secret")) = strOf "sk-secret" :=
  ⟨by decide, by decide,
    claim_C2_encrypt_decrypt_roundtrip testCipher [1, 2] (strOf "sk-secret")
      (by decide) (by decide)⟩

/-! ## Lemmas about JS record assignment -/

/-- Reading back a just-assigned key. -/
theorem jsGet_jsSet_self {α : Type} (m : List (Str × α)) (k : Str) (v : α) :
    jsGet (jsSet m k v) k = some v := by
  induction m with
  | nil => simp [jsGet, jsSet]
  | cons kv r ih =>
    obtain ⟨k', v'⟩ := kv
    by_cases h : k' = k
    · simp [jsGet, jsSet, h]
    · simp [jsGet, jsSet, h, ih]

/-- Assignment to a different key does not change a lookup. -/
theorem jsGet_jsSet_ne {α : Type} (m : List (Str × α)) (k k' : Str) (v : α)
    (h : k' ≠ k) : jsGet (jsSet m k' v) k = jsGet m k := by
  induction m with
  | nil => simp [jsGet, jsSet, h]
  | cons kv r ih =>
    obtain ⟨k0, v0⟩ := kv
    by_cases h0 : k0 = k'
    · simp [jsGet, jsSet, h0, h]
    · by_cases h1 : k0 = k
      · subst h1
        simp [jsGet, jsSet, h0]
      · simp [jsGet, jsSet, h0, h1, ih]

/-- The decryption loop of `loadConfig` leaves lookups of keys it never
writes unchanged. -/
theorem jsGet_decryptFold_not_mem (C : BlockCipher) (l : List (Str × JsonV))
    (m0 : List (Str × Str)) (k : Str) (h : ∀ kv ∈ l, kv.1 ≠ k) :
    jsGet (l.foldl
      (fun m kv =>
        match kv.2 with
        | .str s' => jsSet m kv.1 (SecureStorage.decrypt C s')
        | _ => m) m0) k = jsGet m0 k := by
  induction l generalizing m0 with
  | nil => rfl
  | cons kv r ih =>
    rw [List.foldl_cons]
    rw [ih _ (fun x hx => h x (List.mem_cons_of_mem kv hx))]
    rcases kv with ⟨k0, v0⟩
    cases v0 with
    | str s' => exact jsGet_jsSet_ne m0 k k0 _ (h (k0, .str s') (List.mem_cons_self _ r))
    | null => rfl
    | bool b => rfl
    | num q => rfl
    | arr xs => rfl
    | obj fs => rfl

/-- The decryption loop of `loadConfig` binds each string entry of a
duplicate-free map to its decryption. -/
theorem jsGet_decryptFold_mem (C : BlockCipher) (l : List (Str × JsonV)) (k s : Str)
    (hnd : (l.map Prod.fst).Nodup) (hmem : (k, JsonV.str s) ∈ l) :
    jsGet (l.foldl
      (fun m kv =>
        match kv.2 with
        | .str s' => jsSet m kv.1 (SecureStorage.decrypt C s')
        | _ => m) []) k = some (SecureStorage.decrypt C s) := by
  obtain ⟨l1, l2, rfl⟩ := List.append_of_mem hmem
  have hk2 : k ∉ l2.map Prod.fst := by
    have h1 : ((k, JsonV.str s) :: l2).map Prod.fst |>.Nodup := by
      have := hnd
      rw [List.map_append] at this
      exact this.of_append_right
    rw [List.map_cons] at h1
    exact (List.nodup_cons.mp h1).1
  rw [List.foldl_append, List.foldl_cons]
  rw [jsGet_decryptFold_not_mem C l2 _ k
    (fun kv hkv hkeq => hk2 (hkeq ▸ List.mem_map_of_mem Prod.fst hkv))]
  exact jsGet_jsSet_self _ k _

/-- C7: loading the stored config never throws: an absent file yields a
fresh empty `StoredConfig` with an empty `apiKeys` map; an unparsable file
logs and yields the same empty default; and every stored `apiKeys` entry
whose value does not match the two-part `iv:ciphertext` shape is returned
unchanged as legacy plaintext. -/
theorem claim_C7_load_total (C : BlockCipher) :
    SecureStorage.loadConfig C .absent =
      { apiKeys := [], lastModel := none, mcpServers := none } ∧
    SecureStorage.loadConfig C .unparsable =
      { apiKeys := [], lastModel := none, mcpServers := none } ∧
    (∀ s, badCipherShape s = true → SecureStorage.decrypt C s = s) ∧
    (∀ (j : JsonV) (entries : List (Str × JsonV)) (k s : Str),
      jsField j (strOf "apiKeys") = some (.obj entries) →
      (entries.map Prod.fst).Nodup →
      (k, JsonV.str s) ∈ entries →
      badCipherShape s = true →
      jsGet (SecureStorage.loadConfig C (.parsed j)).apiKeys k = some s) := by
  refine ⟨rfl, rfl, ?_, ?_⟩
  · intro s h
    simp [SecureStorage.decrypt, h]
  · intro j entries k s hfield hnd hmem hshape
    have hdec : SecureStorage.decrypt C s = s := by
      simp [SecureStorage.decrypt, hshape]
    rw [SecureStorage.loadConfig, hfield]
    simp only [jsTruthy, if_true, jsEntries]
    rw [jsGet_decryptFold_mem C entries k s hnd hmem, hdec]

/-- A parsed config file carrying one legacy plaintext credential. -/
def jLegacy : JsonV :=
  .obj [(strOf "apiKeys", .obj [(strOf "OPENAI_API_KEY", .str (strOf "legacy-plain"))])]

/-- Witness for C7 at a concrete cipher and a concrete legacy entry. -/
theorem claim_C7_load_total_witness :
    badCipherShape (strOf "legacy-plain") = true ∧
    jsGet (SecureStorage.loadConfig testCipher (.parsed jLegacy)).apiKeys
      (strOf "OPENAI_API_KEY") = some (strOf "legacy-plain") :=
  ⟨by decide,
    (claim_C7_load_total testCipher).2.2.2 jLegacy
      [(strOf "OPENAI_API_KEY", .str (strOf "legacy-plain"))]
      (strOf "OPENAI_API_KEY") (strOf "legacy-plain")
      rfl (by simp) (List.mem_cons_self _ _) (by decide)⟩

/-- C1 counterexample: the claim says resolution returns the session value
whenever the session overlay holds one, but a present empty-string session
entry is falsy under `||` and resolution falls through to the persistent
store instead. -/
theorem claim_C1_counterexample :
    jsGet stC1cex.session (strOf "OPENAI_API_KEY") = some (strOf "") ∧
    getApiKey stC1cex (strOf "OPENAI_API_KEY") ≠ some (strOf "") ∧
    getApiKey stC1cex (strOf "OPENAI_API_KEY") = some (strOf "sk-persistent") := by
  exact ⟨rfl, by decide, rfl⟩

/-- C1 (amended): for every environment-variable name, credential resolution
checks the session overlay, then the persistent store, then the process
environment, and returns the first *non-empty* value found (a present but
empty-string entry is falsy under `||` and is skipped); when the first two
sources hold no non-empty value the result is whatever the process
environment holds, so absence everywhere yields `undefined`
("not configured"). -/
theorem claim_C1_resolution_precedence (st : LLMState) (v : Str) :
    (∀ s, jsGet st.session v = some s → s ≠ [] → getApiKey st v = some s) ∧
    (truthyStr (jsGet st.session v) = false →
      ∀ s, jsGet st.persistent.apiKeys v = some s → s ≠ [] → getApiKey st v = some s) ∧
    (truthyStr (jsGet st.session v) = false →
      truthyStr (jsGet st.persistent.apiKeys v) = false →
      getApiKey st v = st.env v) ∧
    (jsGet st.session v = none → jsGet st.persistent.apiKeys v = none →
      st.env v = none → getApiKey st v = none) := by
  refine ⟨?_, ?_, ?_, ?_⟩
  · intro s hs hne
    have hts : truthyStr (some s) = true := by
      simp [truthyStr, List.isEmpty_iff, hne]
    simp [getApiKey, jsOrStr, hs, hts]
  · intro hf s hs hne
    have hts : truthyStr (some s) = true := by
      simp [truthyStr, List.isEmpty_iff, hne]
    simp [getApiKey, jsOrStr, hf, hs, hts]
  · intro hf1 hf2
    simp [getApiKey, jsOrStr, hf1, hf2]
  · intro h1 h2 h3
    simp [getApiKey, jsOrStr, h1, h2, h3, truthyStr]

/-- Witness for C1 (amended): with distinct values in all three sources the
session value wins. -/
theorem claim_C1_resolution_precedence_witness :
    jsGet stC1wit.session (strOf "OPENAI_API_KEY") = some (strOf "sk-session") ∧
    getApiKey stC1wit (strOf "OPENAI_API_KEY") = some (strOf "sk-session") :=
  ⟨rfl,
    (claim_C1_resolution_precedence stC1wit (strOf "OPENAI_API_KEY")).1
      (strOf "sk-session") rfl (by decide)⟩

/-- C10: with a known provider whose credential resolves, selecting a model
name outside the provider's compiled-in list returns the
"Model … not available for …" error and leaves the whole service state —
active config and persisted `lastModel` included — unchanged. -/
theorem claim_C10_unknown_model_rejected (st : LLMState) (provider model : Str)
    (ms : List Str)
    (hp : availableModelsTable provider = some ms)
    (hav : provider ∈ getAvailableProviders st)
    (hm : model ∉ ms) :
    setModel st provider model =
      ({ success := false,
         message := strOf "Model " ++ model ++ strOf " not available for " ++ provider,
         requiresApiKey := false, envVar := none }, st) := by
  simp [setModel, hp, hav, hm]

/-- Witness for C10: a credentialed openai provider rejects a made-up model
name. -/
theorem claim_C10_unknown_model_rejected_witness :
    strOf "openai" ∈ getAvailableProviders stOpenAIEnv ∧
    strOf "bogus-model" ∉ (availableModelsTable (strOf "openai")).getD [] ∧
    setModel stOpenAIEnv (strOf "openai") (strOf "bogus-model") =
      ({ success := false,
         message := strOf "Model " ++ strOf "bogus-model" ++ strOf " not available for " ++
           strOf "openai",
         requiresApiKey := false, envVar := none }, stOpenAIEnv) :=
  ⟨by decide, by decide,
    claim_C10_unknown_model_rejected stOpenAIEnv (strOf "openai") (strOf "bogus-model")
      ((availableModelsTable (strOf "openai")).getD []) rfl (by decide) (by decide)⟩

/-- C6: a known provider whose credential resolves at no source makes
`setModel` return the distinguished credential-required result (not a plain
error) carrying the provider's credential variable, and `handleModelCommand`
turns it into a `prompt_key` result carrying provider, requested model and
credential variable — the contract that switches the next turn into
API-key-input mode.  The state is untouched. -/
theorem claim_C6_credential_required (st : LLMState) (provider model : Str)
    (ms : List Str)
    (hp : availableModelsTable provider = some ms)
    (hunav : provider ∉ getAvailableProviders st)
    (hm : model ≠ []) :
    (envVarMap provider).isSome = true ∧
    setModel st provider model =
      ({ success := false, message := strOf "API key not found for " ++ provider,
         requiresApiKey := true, envVar := envVarMap provider }, st) ∧
    handleModelCommand st [provider, model] =
      ({ type := .promptKey,
         message := strOf "Please enter your " ++ upperS provider ++ strOf " API key:",
         data := some (.promptKey provider model (envVarMap provider)) }, st) := by
  have hpcases : provider = strOf "openai" ∨ provider = strOf "anthropic" ∨
      provider = strOf "google" ∨ provider = strOf "mistral" := by
    rw [availableModelsTable] at hp
    split_ifs at hp with h1 h2 h3 h4
    all_goals first
      | exact Or.inl h1
      | exact Or.inr (Or.inl h2)
      | exact Or.inr (Or.inr (Or.inl h3))
      | exact Or.inr (Or.inr (Or.inr h4))
  have hev : (envVarMap provider).isSome = true := by
    rcases hpcases with h | h | h | h <;> subst h <;> decide
  have hpne : provider ≠ [] := by
    rcases hpcases with h | h | h | h <;> subst h <;> decide
  have hsm : setModel st provider model =
      ({ success := false, message := strOf "API key not found for " ++ provider,
         requiresApiKey := true, envVar := envVarMap provider }, st) := by
    simp [setModel, hp, hunav]
  have hpe : provider.isEmpty = false := by
    simpa [List.isEmpty_iff] using hpne
  have hme : model.isEmpty = false := by
    simpa [List.isEmpty_iff] using hm
  refine ⟨hev, hsm, ?_⟩
  simp [handleModelCommand, hp, hsm, truthyStr, hpe, hme]

/-- Witness for C6: with no credential configured anywhere, selecting an
openai model prompts for its key. -/
theorem claim_C6_credential_required_witness :
    strOf "openai" ∉ getAvailableProviders stNoKeys ∧
    handleModelCommand stNoKeys [strOf "openai", strOf "gpt-4o"] =
      ({ type := .promptKey,
         message := strOf "Please enter your " ++ upperS (strOf "openai") ++
           strOf " API key:",
         data := some (.promptKey (strOf "openai") (strOf "gpt-4o")
           (envVarMap (strOf "openai"))) }, stNoKeys) :=
  ⟨by decide,
    (claim_C6_credential_required stNoKeys (strOf "openai") (strOf "gpt-4o")
      ((availableModelsTable (strOf "openai")).getD []) rfl (by decide) (by decide)).2.2⟩

/-- C8 counterexample: with a previously set temperature of 0, a successful
model selection does not preserve it — `temperature: current?.temperature ||
0.7` replaces the falsy 0 by 0.7. -/
theorem claim_C8_counterexample :
    stC8cex.current.map (fun c => c.temperature) = some (some 0) ∧
    (setModel stC8cex (strOf "openai") (strOf "gpt-4o-mini")).1.success = true ∧
    (setModel stC8cex (strOf "openai") (strOf "gpt-4o-mini")).2.current.map
      (fun c => c.temperature) ≠ some (some 0) ∧
    (setModel stC8cex (strOf "openai") (strOf "gpt-4o-mini")).2.current.map
      (fun c => c.temperature) = some (some q07) := by
  refine ⟨rfl, by decide, by decide, by decide⟩

/-- C8 (amended): a successful model selection replaces the active config
with the new provider and model, preserves a previously set `maxTokens`
(and its absence) and a previously set *non-zero* temperature — a previously
set temperature of 0 is falsy under `||` and is reset to 0.7 — and persists
the resulting config as `lastModel` with a single save; session keys, stored
keys and the server map are untouched. -/
theorem claim_C8_model_switch_frame (st : LLMState) (provider model : Str)
    (ms : List Str)
    (hp : availableModelsTable provider = some ms)
    (hav : provider ∈ getAvailableProviders st)
    (hm : model ∈ ms) :
    ∃ cfg : LLMConfig,
      setModel st provider model =
        ({ success := true,
           message := strOf "Switched to " ++ provider ++ strOf " " ++ model,
           requiresApiKey := false, envVar := none },
         { current := some cfg, session := st.session,
           persistent := { apiKeys := st.persistent.apiKeys, lastModel := some cfg,
                           mcpServers := st.persistent.mcpServers },
           env := st.env, saveCount := st.saveCount + 1 }) ∧
      cfg.provider = provider ∧ cfg.model = model ∧
      cfg.maxTokens = st.current.bind (fun c => c.maxTokens) ∧
      (∀ t, st.current.bind (fun c => c.temperature) = some t → t ≠ 0 →
        cfg.temperature = some t) ∧
      ((st.current.bind (fun c => c.temperature) = none ∨
        st.current.bind (fun c => c.temperature) = some 0) →
        cfg.temperature = some q07) := by
  refine ⟨{ provider := provider, model := model,
            temperature := some (jsOrNum (st.current.bind (fun c => c.temperature)) q07),
            maxTokens := st.current.bind (fun c => c.maxTokens) }, ?_, rfl, rfl, rfl, ?_, ?_⟩
  · simp [setModel, hp, hav, hm, saveConfigCall]
  · intro t ht hne
    simp [ht, jsOrNum, hne]
  · intro h
    rcases h with h | h <;> simp [h, jsOrNum]

/-- Witness for C8 at a state with temperature 1 and maxTokens 5. -/
theorem claim_C8_model_switch_frame_witness :
    strOf "openai" ∈ getAvailableProviders stC8wit ∧
    strOf "gpt-4o-mini" ∈ (availableModelsTable (strOf "openai")).getD [] ∧
    (∃ cfg : LLMConfig,
      setModel stC8wit (strOf "openai") (strOf "gpt-4o-mini") =
        ({ success := true,
           message := strOf "Switched to " ++ strOf "openai" ++ strOf " " ++
             strOf "gpt-4o-mini",
           requiresApiKey := false, envVar := none },
         { current := some cfg, session := stC8wit.session,
           persistent := { apiKeys := stC8wit.persistent.apiKeys, lastModel := some cfg,
                           mcpServers := stC8wit.persistent.mcpServers },
           env := stC8wit.env, saveCount := stC8wit.saveCount + 1 }) ∧
      cfg.provider = strOf "openai" ∧ cfg.model = strOf "gpt-4o-mini" ∧
      cfg.maxTokens = stC8wit.current.bind (fun c => c.maxTokens) ∧
      (∀ t, stC8wit.current.bind (fun c => c.temperature) = some t → t ≠ 0 →
        cfg.temperature = some t) ∧
      ((stC8wit.current.bind (fun c => c.temperature) = none ∨
        stC8wit.current.bind (fun c => c.temperature) = some 0) →
        cfg.temperature = some q07)) :=
  ⟨by decide, by decide,
    claim_C8_model_switch_frame stC8wit (strOf "openai") (strOf "gpt-4o-mini")
      ((availableModelsTable (strOf "openai")).getD []) rfl (by decide) (by decide)⟩

/-- The environment-variable names produced by the provider map are
non-empty (hence truthy). -/
theorem envVarMap_truthy (p ev : Str) (h : envVarMap p = some ev) :
    truthyStr (some ev) = true := by
  rw [envVarMap] at h
  split_ifs at h
  all_goals injection h with h2
  all_goals subst h2
  all_goals decide

/-- C9 counterexample: the persisted last model has temperature 0 and its
credential still resolves, yet initialization does not reinstate it
verbatim — the temperature comes back as 0.7. -/
theorem claim_C9_counterexample :
    stC9cex.persistent.lastModel =
      some { provider := strOf "openai", model := strOf "gpt-4o",
             temperature := some 0, maxTokens := none } ∧
    truthyStr (getApiKey stC9cex (strOf "OPENAI_API_KEY")) = true ∧
    (initializeDefaultProvider stC9cex).current ≠ stC9cex.persistent.lastModel ∧
    (initializeDefaultProvider stC9cex).current =
      some { provider := strOf "openai", model := strOf "gpt-4o",
             temperature := some q07, maxTokens := none } := by
  refine ⟨rfl, by decide, by decide, by decide⟩

/-- C9 (amended): initialization first tries the persisted `lastModel` —
when its provider's credential still resolves, the provider, model and
maxTokens are reinstated while the temperature becomes
`lastModel.temperature || 0.7` (so 0 or absent turns into 0.7); otherwise
the registry is scanned in declared order (openai, anthropic, google,
mistral), the first provider with a resolvable credential is selected at its
default model with temperature 0.7, and if none resolves the active config
is left unset. -/
theorem claim_C9_startup_default (st : LLMState) :
    (∀ lm ev, st.persistent.lastModel = some lm → envVarMap lm.provider = some ev →
      truthyStr (getApiKey st ev) = true →
      (initializeDefaultProvider st).current =
        some { provider := lm.provider, model := lm.model,
               temperature := some (jsOrNum lm.temperature q07),
               maxTokens := lm.maxTokens }) ∧
    (∀ lm ev, st.persistent.lastModel = some lm → envVarMap lm.provider = some ev →
      truthyStr (getApiKey st ev) = false →
      (initializeDefaultProvider st).current = scanRegistry st) ∧
    (∀ lm, st.persistent.lastModel = some lm → envVarMap lm.provider = none →
      (initializeDefaultProvider st).current = scanRegistry st) ∧
    (st.persistent.lastModel = none →
      (initializeDefaultProvider st).current = scanRegistry st) ∧
    (truthyStr (getApiKey st (strOf "OPENAI_API_KEY")) = true →
      scanRegistry st =
        some { provider := strOf "openai", model := strOf "gpt-4o-mini",
               temperature := some q07, maxTokens := none }) ∧
    (truthyStr (getApiKey st (strOf "OPENAI_API_KEY")) = false →
      truthyStr (getApiKey st (strOf "ANTHROPIC_API_KEY")) = true →
      scanRegistry st =
        some { provider := strOf "anthropic", model := strOf "claude-3-5-sonnet-20241022",
               temperature := some q07, maxTokens := none }) ∧
    (truthyStr (getApiKey st (strOf "OPENAI_API_KEY")) = false →
      truthyStr (getApiKey st (strOf "ANTHROPIC_API_KEY")) = false →
      truthyStr (getApiKey st (strOf "GOOGLE_API_KEY")) = true →
      scanRegistry st =
        some { provider := strOf "google", model := strOf "gemini-1.5-pro",
               temperature := some q07, maxTokens := none }) ∧
    (truthyStr (getApiKey st (strOf "OPENAI_API_KEY")) = false →
      truthyStr (getApiKey st (strOf "ANTHROPIC_API_KEY")) = false →
      truthyStr (getApiKey st (strOf "GOOGLE_API_KEY")) = false →
      truthyStr (getApiKey st (strOf "MISTRAL_API_KEY")) = true →
      scanRegistry st =
        some { provider := strOf "mistral", model := strOf "mistral-large-latest",
               temperature := some q07, maxTokens := none }) ∧
    (truthyStr (getApiKey st (strOf "OPENAI_API_KEY")) = false →
      truthyStr (getApiKey st (strOf "ANTHROPIC_API_KEY")) = false →
      truthyStr (getApiKey st (strOf "GOOGLE_API_KEY")) = false →
      truthyStr (getApiKey st (strOf "MISTRAL_API_KEY")) = false →
      scanRegistry st = none) := by
  refine ⟨?_, ?_, ?_, ?_, ?_, ?_, ?_, ?_, ?_⟩
  · intro lm ev h1 h2 h3
    simp [initializeDefaultProvider, h1, h2, h3, envVarMap_truthy lm.provider ev h2]
  · intro lm ev h1 h2 h3
    simp [initializeDefaultProvider, h1, h2, h3]
  · intro lm h1 h2
    simp [initializeDefaultProvider, h1, h2]
  · intro h1
    simp [initializeDefaultProvider, h1]
  · intro h1
    simp [scanRegistry, providerRegistry, List.find?, h1]
  · intro h1 h2
    simp [scanRegistry, providerRegistry, List.find?, h1, h2]
  · intro h1 h2 h3
    simp [scanRegistry, providerRegistry, List.find?, h1, h2, h3]
  · intro h1 h2 h3 h4
    simp [scanRegistry, providerRegistry, List.find?, h1, h2, h3, h4]
  · intro h1 h2 h3 h4
    simp [scanRegistry, providerRegistry, List.find?, h1, h2, h3, h4]

/-- Witness for C9: a last model with temperature 1 and a resolvable
credential is reinstated. -/
theorem claim_C9_startup_default_witness :
    stC9wit.persistent.lastModel =
      some { provider := strOf "openai", model := strOf "gpt-4o",
             temperature := some 1, maxTokens := some 9 } ∧
    truthyStr (getApiKey stC9wit (strOf "OPENAI_API_KEY")) = true ∧
    (initializeDefaultProvider stC9wit).current =
      some { provider := strOf "openai", model := strOf "gpt-4o",
             temperature := some (jsOrNum (some 1) q07), maxTokens := some 9 } :=
  ⟨rfl, by decide,
    (claim_C9_startup_default stC9wit).1
      { provider := strOf "openai", model := strOf "gpt-4o",
        temperature := some 1, maxTokens := some 9 }
      (strOf "OPENAI_API_KEY") rfl rfl (by decide)⟩

/-- C5: on a line of at least two whitespace-separated tokens, dispatch
first looks up the two-token key and on a hit invokes that handler with the
tokens from index 2; only otherwise is the one-token key looked up with the
tokens from index 1; a line matching no key yields the structured
unknown-command error.  In particular, with both registered, "/server add"
invokes the two-token handler with no arguments. -/
theorem claim_C5_dispatch_precedence {α : Type} (reg : List (Str × α)) (input : Str)
    (t0 t1 : Str) (rest : List Str)
    (hsplit : splitWs (trimS input) = t0 :: t1 :: rest) :
    (∀ h, jsGet reg (t0 ++ ' ' :: t1) = some h →
      dispatchCommand reg input = .invoke h rest) ∧
    (jsGet reg (t0 ++ ' ' :: t1) = none →
      ∀ h, jsGet reg t0 = some h →
        dispatchCommand reg input = .invoke h (t1 :: rest)) ∧
    (jsGet reg (t0 ++ ' ' :: t1) = none → jsGet reg t0 = none →
      dispatchCommand reg input =
        .unknown (strOf "Unknown command: " ++ t0 ++
          strOf ". Type /help for available commands.")) ∧
    dispatchCommand cliRegistry (strOf "/server add") = .invoke CmdTag.serverAdd [] := by
  refine ⟨?_, ?_, ?_, by decide⟩
  · intro h hh
    simp [dispatchCommand, hsplit, hh]
  · intro hnone h hh
    simp [dispatchCommand, hsplit, hnone, hh]
  · intro hnone h0
    simp [dispatchCommand, hsplit, hnone, h0]

/-- Witness for C5: "/server connect db" resolves the two-token key with the
remaining token, and an unregistered line gives the unknown-command error. -/
theorem claim_C5_dispatch_precedence_witness :
    splitWs (trimS (strOf "/server connect db")) =
      [strOf "/server", strOf "connect", strOf "db"] ∧
    dispatchCommand cliRegistry (strOf "/server connect db") =
      .invoke CmdTag.serverConnect [strOf "db"] ∧
    dispatchCommand cliRegistry (strOf "/server add") = .invoke CmdTag.serverAdd [] :=
  ⟨by decide,
    (claim_C5_dispatch_precedence cliRegistry (strOf "/server connect db")
      (strOf "/server") (strOf "connect") [strOf "db"] (by decide)).1
      CmdTag.serverConnect (by decide),
    (claim_C5_dispatch_precedence cliRegistry (strOf "/server connect db")
      (strOf "/server") (strOf "connect") [strOf "db"] (by decide)).2.2.2⟩

/-- C4 counterexample: a bulk spec whose single fresh entry carries only a
`url` satisfies every rejection condition's negation in the claim
(`mcpServers` present and an object, one entry, no name collision, `url`
present), yet the code rejects it — `addServerFromJSON` requires a string
`command` on every entry — writing nothing. -/
theorem claim_C4_counterexample :
    jsField bulkUrlOnly (strOf "mcpServers") =
      some (.obj [(strOf "remote",
        .obj [(strOf "url", .str (strOf "http://localhost:8000/sse"))])]) ∧
    jsField (.obj [(strOf "url", .str (strOf "http://localhost:8000/sse"))]) (strOf "url") =
      some (.str (strOf "http://localhost:8000/sse")) ∧
    mcpEmpty.mcpServers = [] ∧
    (addServerFromJSONParsed bulkUrlOnly mcpEmpty).1.success = false ∧
    (addServerFromJSONParsed bulkUrlOnly mcpEmpty).1.message =
      strOf "Server \x22" ++ strOf "remote" ++
        strOf "\x22 missing required \x22command\x22 field." ∧
    (addServerFromJSONParsed bulkUrlOnly mcpEmpty).2 = mcpEmpty :=
  ⟨rfl, rfl, rfl, rfl, rfl, rfl⟩

/-- C4 (amended): bulk add succeeds exactly when the top-level `mcpServers`
value is present, truthy and of object type, has at least one entry, no
entry name collides (truthily) with a persisted server, and every entry has
a non-empty string `command` — an entry carrying only a `url` is also
rejected.  On any rejection the state is untouched; on success all entries
are merged into the map in one save and their names are returned.  Single
`addServer` likewise rejects a (truthily) present name, leaving the state
unchanged. -/
theorem claim_C4_bulk_add_validation (j : JsonV) (st : MCPState) :
    ((addServerFromJSONParsed j st).1.success = true ↔
      ∃ v, jsField j (strOf "mcpServers") = some v ∧
        (jsTruthy v && jsTypeofObject v) = true ∧
        jsEntries v ≠ [] ∧
        (∀ n ∈ (jsEntries v).map Prod.fst, jsTruthyOpt (jsGet st.mcpServers n) = false) ∧
        (∀ e ∈ jsEntries v, entryCommandOk e.2 = true)) ∧
    ((addServerFromJSONParsed j st).1.success = false →
      (addServerFromJSONParsed j st).2 = st) ∧
    (∀ v, jsField j (strOf "mcpServers") = some v →
      (addServerFromJSONParsed j st).1.success = true →
      (addServerFromJSONParsed j st).2.mcpServers =
        (jsEntries v).foldl (fun m e => jsSet m e.1 e.2) st.mcpServers ∧
      (addServerFromJSONParsed j st).2.saveCount = st.saveCount + 1 ∧
      (addServerFromJSONParsed j st).1.data =
        some (.serversAdded ((jsEntries v).map Prod.fst))) ∧
    (∀ name spec, jsTruthyOpt (jsGet st.mcpServers name) = true →
      addServer st name spec =
        ({ success := false,
           message := strOf "Server \x22" ++ name ++
             strOf "\x22 already exists. Use a different name.",
           data := none }, st)) := by
  have habs : ∀ name spec, jsTruthyOpt (jsGet st.mcpServers name) = true →
      addServer st name spec =
        ({ success := false,
           message := strOf "Server \x22" ++ name ++
             strOf "\x22 already exists. Use a different name.",
           data := none }, st) := by
    intro name spec h
    simp [addServer, h]
  cases hv : jsField j (strOf "mcpServers") with
  | none =>
    have hres : addServerFromJSONParsed j st =
        ({ success := false, message := strOf "Invalid JSON format. Expected format: ...",
           data := none }, st) := by
      simp [addServerFromJSONParsed, hv]
    refine ⟨?_, fun _ => by rw [hres], ?_, habs⟩
    · rw [hres]
      simp only [Bool.false_eq_true, false_iff]
      rintro ⟨v', hv', _⟩
      exact Option.noConfusion hv'
    · intro v' hv' _
      exact Option.noConfusion hv'
  | some v =>
    by_cases htv : (jsTruthy v && jsTypeofObject v) = true
    · by_cases hne : jsEntries v = []
      · have hres : addServerFromJSONParsed j st =
            ({ success := false, message := strOf "No servers found in JSON configuration.",
               data := none }, st) := by
          simp [addServerFromJSONParsed, hv, htv, hne]
        refine ⟨?_, fun _ => by rw [hres], ?_, habs⟩
        · rw [hres]
          simp only [Bool.false_eq_true, false_iff]
          rintro ⟨v', hv', _, hne', _, _⟩
          injection hv' with hv''
          exact hne' (hv'' ▸ hne)
        · intro v' _ hsucc
          rw [hres] at hsucc
          exact absurd hsucc (by simp)
      · by_cases hcf : ((jsEntries v).map Prod.fst).filter
            (fun n => jsTruthyOpt (jsGet st.mcpServers n)) = []
        · cases hfind : (jsEntries v).find? (fun e => !entryCommandOk e.2) with
          | some bad =>
            have hres : addServerFromJSONParsed j st =
                ({ success := false,
                   message := strOf "Server \x22" ++ bad.1 ++
                     strOf "\x22 missing required \x22command\x22 field.",
                   data := none }, st) := by
              simp [addServerFromJSONParsed, hv, htv, hne, hcf, hfind]
            have hbadmem : bad ∈ jsEntries v := List.mem_of_find?_eq_some hfind
            have hbadp := List.find?_some hfind
            refine ⟨?_, fun _ => by rw [hres], ?_, habs⟩
            · rw [hres]
              simp only [Bool.false_eq_true, false_iff]
              rintro ⟨v', hv', _, _, _, hcmd'⟩
              injection hv' with hv''
              subst hv''
              rw [hcmd' bad hbadmem] at hbadp
              exact absurd hbadp (by simp)
            · intro v' _ hsucc
              rw [hres] at hsucc
              exact absurd hsucc (by simp)
          | none =>
            have hres : addServerFromJSONParsed j st =
                ({ success := true,
                   message := strOf "Configured " ++
                     natKey ((jsEntries v).map Prod.fst).length ++ strOf " server(s)!",
                   data := some (.serversAdded ((jsEntries v).map Prod.fst)) },
                 { mcpServers :=
                     (jsEntries v).foldl (fun m e => jsSet m e.1 e.2) st.mcpServers,
                   saveCount := st.saveCount + 1 }) := by
              simp [addServerFromJSONParsed, hv, htv, hne, hcf, hfind]
            refine ⟨?_, ?_, ?_, habs⟩
            · rw [hres]
              simp only [true_iff]
              refine ⟨v, rfl, htv, hne, ?_, ?_⟩
              · intro n hn
                have := List.filter_eq_nil_iff.mp hcf n hn
                simpa using this
              · intro e he
                have := List.find?_eq_none.mp hfind e he
                simpa using this
            · intro hfail
              rw [hres] at hfail
              exact absurd hfail (by simp)
            · intro v' hv' _
              injection hv' with hv''
              subst hv''
              rw [hres]
              exact ⟨rfl, rfl, rfl⟩
        · have hres : addServerFromJSONParsed j st =
              ({ success := false,
                 message := strOf "Server(s) already exist: " ++
                   joinWith (strOf ", ")
                     (((jsEntries v).map Prod.fst).filter
                       (fun n => jsTruthyOpt (jsGet st.mcpServers n))) ++
                   strOf ". Please use different names.",
                 data := none }, st) := by
            simp [addServerFromJSONParsed, hv, htv, hne, hcf]
          refine ⟨?_, fun _ => by rw [hres], ?_, habs⟩
          · rw [hres]
            simp only [Bool.false_eq_true, false_iff]
            rintro ⟨v', hv', _, _, hconf', _⟩
            injection hv' with hv''
            subst hv''
            rcases List.exists_mem_of_ne_nil _ hcf with ⟨n, hnmem⟩
            have hnm := List.mem_filter.mp hnmem
            rw [hconf' n hnm.1] at hnm
            exact absurd hnm.2 (by simp)
          · intro v' _ hsucc
            rw [hres] at hsucc
            exact absurd hsucc (by simp)
    · have hres : addServerFromJSONParsed j st =
          ({ success := false, message := strOf "Invalid JSON format. Expected format: ...",
             data := none }, st) := by
        simp [addServerFromJSONParsed, hv, htv]
      refine ⟨?_, fun _ => by rw [hres], ?_, habs⟩
      · rw [hres]
        simp only [Bool.false_eq_true, false_iff]
        rintro ⟨v', hv', htv', _, _, _⟩
        injection hv' with hv''
        exact htv (hv'' ▸ htv')
      · intro v' _ hsucc
        rw [hres] at hsucc
        exact absurd hsucc (by simp)

/-- Witness for C4 at a one-entry well-formed bulk spec over an empty
registry. -/
theorem claim_C4_bulk_add_validation_witness :
    (addServerFromJSONParsed bulkOneCmd mcpEmpty).1.success = true ∧
    (addServerFromJSONParsed bulkOneCmd mcpEmpty).2.saveCount = 1 ∧
    (addServerFromJSONParsed bulkOneCmd mcpEmpty).1.data =
      some (.serversAdded [strOf "files"]) := by
  have hsucc : (addServerFromJSONParsed bulkOneCmd mcpEmpty).1.success = true :=
    (claim_C4_bulk_add_validation bulkOneCmd mcpEmpty).1.mpr
      ⟨.obj [(strOf "files",
          .obj [(strOf "command", .str (strOf "npx")),
                (strOf "args", .arr [.str (strOf "-y"), .str (strOf "@example/server")])])],
        rfl, by decide, List.cons_ne_nil _ _,
        by
          intro n _
          rfl,
        by
          intro e he
          simp only [jsEntries, List.mem_singleton] at he
          subst he
          rfl⟩
  have hout := (claim_C4_bulk_add_validation bulkOneCmd mcpEmpty).2.2.1
    (.obj [(strOf "files",
        .obj [(strOf "command", .str (strOf "npx")),
              (strOf "args", .arr [.str (strOf "-y"), .str (strOf "@example/server")])])])
    rfl hsucc
  exact ⟨hsucc, hout.2.1, hout.2.2⟩

/-- Wizard turn 1: a trimmed, non-JSON, fresh, non-empty name advances
`name_or_json` to the `command` step carrying the name. -/
theorem wizard_step_name (jp : Str → Option JsonV) (st : MCPState) (name : Str)
    (h1 : trimS name = name) (h2 : name ≠ [])
    (h3 : startsWithChar '{' name = false)
    (h4 : jsTruthyOpt (jsGet st.mcpServers name) = false) :
    handleServerConfigInput jp st name (strOf "name_or_json") none =
      ({ type := .promptServerConfig,
         message := strOf "Server name: " ++ name ++
           strOf "\n\nEnter the command to run this server:",
         data := some (.wizardStep (strOf "command")
           (some { name := some name, command := none, args := none, env := none })) },
       st) := by
  have h2' : name.isEmpty = false := by simpa [List.isEmpty_iff] using h2
  simp only [handleServerConfigInput, Option.getD]
  rw [if_pos trivial]
  simp [h1, h3, validateServerName, truthyStr, h2', h4, PartialCfg.empty]

/-- Wizard turn 2: a non-blank command advances `command` to `args`. -/
theorem wizard_step_command (jp : Str → Option JsonV) (st : MCPState) (input : Str)
    (cfg : PartialCfg) (h : trimS input ≠ []) :
    handleServerConfigInput jp st input (strOf "command") (some cfg) =
      ({ type := .promptServerConfig,
         message := strOf "Enter arguments (space-separated, or press Enter for none):",
         data := some (.wizardStep (strOf "args")
           (some { cfg with command := some (trimS input) })) }, st) := by
  have h' : (trimS input).isEmpty = false := by simpa [List.isEmpty_iff] using h
  simp only [handleServerConfigInput, Option.getD]
  rw [if_neg (by decide), if_neg (by decide), if_pos trivial]
  simp [truthyStr, h']

/-- Wizard turn 3: any args line advances `args` to `env`, whitespace-split
(empty trimmed input giving the empty list). -/
theorem wizard_step_args (jp : Str → Option JsonV) (st : MCPState) (input : Str)
    (cfg : PartialCfg) :
    handleServerConfigInput jp st input (strOf "args") (some cfg) =
      ({ type := .promptServerConfig,
         message := strOf "Enter environment variables (KEY=VALUE format, one per line):",
         data := some (.wizardStep (strOf "env")
           (some { cfg with args := some (if truthyStr (some (trimS input)) then splitWs (trimS input) else []) })) },
       st) := by
  simp only [handleServerConfigInput, Option.getD]
  rw [if_neg (by decide), if_neg (by decide), if_neg (by decide), if_pos trivial]

/-- Wizard turn 4: any env line advances `env` to `confirm`, parsed as
KEY=VALUE bindings. -/
theorem wizard_step_env (jp : Str → Option JsonV) (st : MCPState) (input : Str)
    (cfg : PartialCfg) :
    handleServerConfigInput jp st input (strOf "env") (some cfg) =
      ({ type := .promptServerConfig,
         message := strOf "Server Configuration Summary. Confirm to add this server? (y/n):",
         data := some (.wizardStep (strOf "confirm")
           (some { cfg with env := some (parseEnvironmentVariables input) })) }, st) := by
  simp only [handleServerConfigInput, Option.getD]
  rw [if_neg (by decide), if_neg (by decide), if_neg (by decide), if_neg (by decide),
    if_pos trivial]

/-- Wizard turn 5 on "y"/"yes": a complete fresh spec is persisted. -/
theorem wizard_step_confirm_yes (jp : Str → Option JsonV) (st : MCPState) (input : Str)
    (name cmd : Str) (args : List Str) (env : List (Str × Str))
    (hy : lowerS (trimS input) = strOf "y" ∨ lowerS (trimS input) = strOf "yes")
    (hcmd : cmd ≠ []) (hname : name ≠ [])
    (hfresh : jsTruthyOpt (jsGet st.mcpServers name) = false) :
    handleServerConfigInput jp st input (strOf "confirm")
      (some { name := some name, command := some cmd, args := some args, env := some env }) =
      ({ type := .success,
         message := strOf "Server \x22" ++ name ++ strOf "\x22 configured!" ++ strOf ".",
         data := some (.serverAdded name) },
       { mcpServers := jsSet st.mcpServers name (wizardSpecJson cmd (some args) (some env)),
         saveCount := st.saveCount + 1 }) := by
  have hc' : cmd.isEmpty = false := by simpa [List.isEmpty_iff] using hcmd
  have hn' : name.isEmpty = false := by simpa [List.isEmpty_iff] using hname
  simp only [handleServerConfigInput, Option.getD]
  rw [if_neg (by decide), if_neg (by decide), if_neg (by decide), if_neg (by decide),
    if_neg (by decide), if_pos trivial]
  rw [if_pos hy]
  simp [hc', truthyStr, hn', addServer, hfresh]

/-- Wizard turn 5 on "n"/"no": cancellation, no state change. -/
theorem wizard_step_confirm_no (jp : Str → Option JsonV) (st : MCPState) (input : Str)
    (cfg : PartialCfg)
    (hnoty : ¬(lowerS (trimS input) = strOf "y" ∨ lowerS (trimS input) = strOf "yes"))
    (hn : lowerS (trimS input) = strOf "n" ∨ lowerS (trimS input) = strOf "no") :
    handleServerConfigInput jp st input (strOf "confirm") (some cfg) =
      ({ type := .info, message := strOf "Server configuration cancelled.", data := none },
        st) := by
  simp only [handleServerConfigInput, Option.getD]
  rw [if_neg (by decide), if_neg (by decide), if_neg (by decide), if_neg (by decide),
    if_neg (by decide), if_pos trivial]
  rw [if_neg hnoty, if_pos hn]

/-- Characters of a split piece come from the split string. -/
theorem mem_of_mem_splitOnPred (p : Char → Bool) :
    ∀ (s : Str) (w : Str) (c : Char), w ∈ splitOnPred p s → c ∈ w → c ∈ s := by
  intro s
  induction s with
  | nil =>
    intro w c hw hc
    simp [splitOnPred] at hw
    subst hw
    simp at hc
  | cons c0 t ih =>
    intro w c hw hc
    rw [splitOnPred_cons] at hw
    by_cases hp : p c0 = true
    · rw [if_pos hp] at hw
      rcases List.mem_cons.mp hw with rfl | hmem
      · simp at hc
      · exact List.mem_cons_of_mem c0 (ih w c hmem hc)
    · rw [if_neg hp] at hw
      rcases hsplit : splitOnPred p t with _ | ⟨w0, ws⟩
      · exact absurd hsplit (splitOnPred_ne_nil p t)
      · rw [hsplit] at hw
        rcases List.mem_cons.mp hw with rfl | hmem
        · rcases List.mem_cons.mp hc with rfl | hc0
          · exact List.mem_cons_self c t
          · refine List.mem_cons_of_mem c0 (ih w0 c ?_ hc0)
            rw [hsplit]
            exact List.mem_cons_self w0 ws
        · refine List.mem_cons_of_mem c0 (ih w c ?_ hc)
          rw [hsplit]
          exact List.mem_cons_of_mem w0 hmem

/-- Characters survive `dropWhile` only if they were present. -/
theorem mem_of_mem_dropWhile (p : Char → Bool) :
    ∀ (s : Str) (c : Char), c ∈ s.dropWhile p → c ∈ s := by
  intro s
  induction s with
  | nil =>
    intro c h
    simp at h
  | cons c0 t ih =>
    intro c h
    rw [List.dropWhile_cons] at h
    split at h
    · exact List.mem_cons_of_mem c0 (ih c h)
    · exact h

/-- Characters of the trimmed string come from the original. -/
theorem mem_of_mem_trimS (s : Str) (c : Char) (h : c ∈ trimS s) : c ∈ s := by
  rw [trimS, rtrim] at h
  rw [List.mem_reverse] at h
  have h1 : c ∈ (ltrim s).reverse := mem_of_mem_dropWhile Char.isWhitespace _ c h
  rw [List.mem_reverse, ltrim] at h1
  exact mem_of_mem_dropWhile Char.isWhitespace s c h1

/-- A line containing no `'='` contributes no binding. -/
theorem parseEnvLine_no_eq (env : List (Str × Str)) (l : Str)
    (h : ∀ c ∈ l, c ≠ '=') : parseEnvLine env l = env := by
  have hsp : splitEq l = [l] := by
    refine splitOnPred_no_sep _ l ?_
    intro c hc
    simpa using h c hc
  simp [parseEnvLine, hsp]

/-- An env input without any `'='` parses to the empty map. -/
theorem parseEnvironmentVariables_no_eq (s : Str) (h : ∀ c ∈ s, c ≠ '=') :
    parseEnvironmentVariables s = [] := by
  rw [parseEnvironmentVariables]
  by_cases he : (trimS s).isEmpty
  · rw [if_pos he]
  · rw [if_neg he]
    have hlines : ∀ l ∈ splitNl (trimS s), ∀ c ∈ l, c ≠ '=' := by
      intro l hl c hc
      exact h c (mem_of_mem_trimS s c (mem_of_mem_splitOnPred _ _ l c hl hc))
    generalize hg : splitNl (trimS s) = lines at hlines
    clear hg he
    induction lines with
    | nil => rfl
    | cons l rest ih =>
      rw [List.foldl_cons, parseEnvLine_no_eq [] l (hlines l (List.mem_cons_self l rest))]
      exact ih (fun l' hl' => hlines l' (List.mem_cons_of_mem l hl'))

/-- C3: starting at `name_or_json`, the input sequence (trimmed valid fresh
name, non-blank command, any args line, any env line, "y") reaches terminal
success with the spec persisted under the name — command trimmed, args
whitespace-split with empty input giving the empty list, env parsed from
KEY=VALUE lines with '='-free input contributing nothing — in one save;
the same sequence ending in "n" reaches terminal cancellation with the
persisted map (and whole state) unchanged. -/
theorem claim_C3_wizard_totality (jp : Str → Option JsonV) (st : MCPState)
    (name cmd argsL envL : Str)
    (h1 : trimS name = name) (h2 : name ≠ [])
    (h3 : startsWithChar '{' name = false)
    (h4 : jsTruthyOpt (jsGet st.mcpServers name) = false)
    (h5 : trimS cmd ≠ []) :
    wizardRun jp st (strOf "name_or_json") none [name, cmd, argsL, envL, strOf "y"] =
      ({ type := .success,
         message := strOf "Server \x22" ++ name ++ strOf "\x22 configured!" ++ strOf ".",
         data := some (.serverAdded name) },
       { mcpServers := jsSet st.mcpServers name
           (wizardSpecJson (trimS cmd)
             (some (if truthyStr (some (trimS argsL)) then splitWs (trimS argsL) else []))
             (some (parseEnvironmentVariables envL))),
         saveCount := st.saveCount + 1 }) ∧
    ((trimS argsL).isEmpty = true →
      (if truthyStr (some (trimS argsL)) then splitWs (trimS argsL) else []) = []) ∧
    ((∀ c ∈ envL, c ≠ '=') → parseEnvironmentVariables envL = []) ∧
    wizardRun jp st (strOf "name_or_json") none [name, cmd, argsL, envL, strOf "n"] =
      ({ type := .info, message := strOf "Server configuration cancelled.", data := none },
       st) := by
  have e1 := wizard_step_name jp st name h1 h2 h3 h4
  have e2 := wizard_step_command jp st cmd
    { name := some name, command := none, args := none, env := none } h5
  have e3 := wizard_step_args jp st argsL
    { name := some name, command := some (trimS cmd), args := none, env := none }
  have e4 := wizard_step_env jp st envL
    { name := some name, command := some (trimS cmd),
      args := some (if truthyStr (some (trimS argsL)) then splitWs (trimS argsL) else []),
      env := none }
  have e5 := wizard_step_confirm_yes jp st (strOf "y") name (trimS cmd)
    (if truthyStr (some (trimS argsL)) then splitWs (trimS argsL) else [])
    (parseEnvironmentVariables envL) (Or.inl (by decide)) h5 h2 h4
  have e5n := wizard_step_confirm_no jp st (strOf "n")
    { name := some name, command := some (trimS cmd),
      args := some (if truthyStr (some (trimS argsL)) then splitWs (trimS argsL) else []),
      env := some (parseEnvironmentVariables envL) } (by decide) (Or.inl (by decide))
  refine ⟨?_, ?_, ?_, ?_⟩
  · simp [wizardRun, e1, e2, e3, e4, e5]
  · intro h
    simp [truthyStr, h]
  · intro h
    exact parseEnvironmentVariables_no_eq envL h
  · simp [wizardRun, e1, e2, e3, e4, e5n]

/-- Witness for C3 at a concrete five-step run over an empty registry. -/
theorem claim_C3_wizard_totality_witness :
    wizardRun (fun _ => none) mcpEmpty (strOf "name_or_json") none
      [strOf "files", strOf "npx", strOf "-y @x/server", strOf "DEBUG=1", strOf "y"] =
      ({ type := .success,
         message := strOf "Server \x22" ++ strOf "files" ++ strOf "\x22 configured!" ++
           strOf ".",
         data := some (.serverAdded (strOf "files")) },
       { mcpServers := jsSet mcpEmpty.mcpServers (strOf "files")
           (wizardSpecJson (trimS (strOf "npx"))
             (some (if truthyStr (some (trimS (strOf "-y @x/server"))) then
               splitWs (trimS (strOf "-y @x/server")) else []))
             (some (parseEnvironmentVariables (strOf "DEBUG=1")))),
         saveCount := mcpEmpty.saveCount + 1 }) ∧
    wizardRun (fun _ => none) mcpEmpty (strOf "name_or_json") none
      [strOf "files", strOf "npx", strOf "-y @x/server", strOf "DEBUG=1", strOf "n"] =
      ({ type := .info, message := strOf "Server configuration cancelled.", data := none },
       mcpEmpty) :=
  ⟨(claim_C3_wizard_totality (fun _ => none) mcpEmpty (strOf "files") (strOf "npx")
      (strOf "-y @x/server") (strOf "DEBUG=1")
      (by decide) (by decide) (by decide) (by decide) (by decide)).1,
   (claim_C3_wizard_totality (fun _ => none) mcpEmpty (strOf "files") (strOf "npx")
      (strOf "-y @x/server") (strOf "DEBUG=1")
      (by decide) (by decide) (by decide) (by decide) (by decide)).2.2.2⟩
